import Mathlib

/-
Verification development for the chatBotForBuisness orchestration core.

The Python sources (ollama_bot.py and mcp_client.py) are shallowly embedded:
pure helpers become Lean functions, the module-level caches become explicit
state records threaded through the functions, and every network round trip
(HTTP fetch, provider call) becomes an explicit argument describing the
outcome of that round trip, so that every claim about "never contacting the
provider" or "keeping the previous cache on failure" is a statement about
how the result depends (or does not depend) on that argument.
-/

set_option maxRecDepth 4096

namespace ChatBot

/-- Model of a parsed Python JSON value, the result of json.loads. Numbers keep
their source lexeme, because the orchestration code never inspects numeric
values, only their type and truthiness. -/
inductive JValue where
  | jnull
  | jbool (b : Bool)
  | jnum (lexeme : String)
  | jstr (s : String)
  | jarr (items : List JValue)
  | jobj (fields : List (String × JValue))

open JValue

/-- Python dict lookup d.get(k): with duplicate JSON keys the last occurrence
wins, matching how dict construction overwrites earlier keys. Returns none when
the key is absent, modelling the Python None default. -/
def jget (fields : List (String × JValue)) (k : String) : Option JValue :=
  fields.foldl (fun acc kv => if kv.1 = k then some kv.2 else acc) none

/-- Python dict lookup d.get(k, default). -/
def jgetD (fields : List (String × JValue)) (k : String) (d : JValue) : JValue :=
  (jget fields k).getD d

/-- Truthiness of a JSON number lexeme under Python bool(): zero iff every digit
of the mantissa is 0. Lexemes with no digit at all (NaN, Infinity) are truthy. -/
def numTruthy (lex : String) : Bool :=
  let mant := lex.data.takeWhile (fun c => !(c == 'e' || c == 'E'))
  let ds := mant.filter Char.isDigit
  ds.isEmpty || ds.any (fun c => !(c == '0'))

/-- Python truthiness of a JSON-derived value. -/
def jtruthy : JValue → Bool
  | jnull => false
  | jbool b => b
  | jnum lex => numTruthy lex
  | jstr s => !s.isEmpty
  | jarr l => !l.isEmpty
  | jobj f => !f.isEmpty

/-- Python iteration over a JSON-derived value: lists yield their items, strings
yield their characters as one-character strings, dicts yield their keys (one per
distinct key, in first-insertion order); other values raise TypeError, modelled
as none. -/
def pyIter : JValue → Option (List JValue)
  | jarr l => some l
  | jstr s => some (s.data.map (fun c => jstr (String.mk [c])))
  | jobj f => some (((f.map Prod.fst).dedup).map jstr)
  | _ => none

/-- Python subscript v[0]: the first item of a list or string; dicts raise
KeyError for the key 0 (JSON keys are strings) and other values raise
TypeError, both modelled as none. Empty sequences raise IndexError. -/
def pyIndex0 : JValue → Option JValue
  | jarr (x :: _) => some x
  | jstr s =>
    match s.data with
    | c :: _ => some (jstr (String.mk [c]))
    | [] => none
  | _ => none

/-- Whether the value is a dict, modelling isinstance(v, dict). -/
def isObj : JValue → Bool
  | jobj _ => true
  | _ => false

mutual
/-- Best-effort model of Python repr on JSON-derived values: strings are wrapped
in single quotes without re-escaping, number lexemes are kept verbatim (exact
for ints; Python renders floats canonically instead), and dict entries are
listed as parsed (Python would collapse duplicate keys). These corners are not
exercised by any claim. -/
def pyrepr : JValue → String
  | jnull => "None"
  | jbool true => "True"
  | jbool false => "False"
  | jnum lex => lex
  | jstr s => "\x27" ++ s ++ "\x27"
  | jarr l => "[" ++ String.intercalate ", " (pyreprList l) ++ "]"
  | jobj f => "\x7b" ++ String.intercalate ", " (pyreprFields f) ++ "\x7d"

def pyreprList : List JValue → List String
  | [] => []
  | v :: rest => pyrepr v :: pyreprList rest

def pyreprFields : List (String × JValue) → List String
  | [] => []
  | kv :: rest => ("\x27" ++ kv.1 ++ "\x27: " ++ pyrepr kv.2) :: pyreprFields rest
end

/-- Model of Python str() on JSON-derived values: the identity on strings and
repr on everything else. -/
def pystr : JValue → String
  | jstr s => s
  | v => pyrepr v

/-! Model of json.loads, the JSON decoder applied to each fenced block.  The
decoder is fuel-indexed for termination; the fuel supplied by py_json_loads is
far larger than the recursion depth any input of that length can reach. -/

def dquoteC : Char := Char.ofNat 34

def bslashC : Char := Char.ofNat 92

def lbraceC : Char := Char.ofNat 123

def rbraceC : Char := Char.ofNat 125

def btickC : Char := Char.ofNat 96

/-- JSON insignificant whitespace. -/
def jsonWs (c : Char) : Bool := c == ' ' || c == '\t' || c == '\n' || c == '\r'

def skipJsonWs (cs : List Char) : List Char := cs.dropWhile jsonWs

def hexVal (c : Char) : Option Nat :=
  if c.isDigit then some (c.toNat - 48)
  else if 'a' ≤ c ∧ c ≤ 'f' then some (c.toNat - 87)
  else if 'A' ≤ c ∧ c ≤ 'F' then some (c.toNat - 55)
  else none

/-- Decoding of a two-character escape sequence in a JSON string. -/
def escChar (c : Char) : Option Char :=
  if c = dquoteC then some dquoteC
  else if c = bslashC then some bslashC
  else if c = '/' then some '/'
  else if c = 'b' then some (Char.ofNat 8)
  else if c = 'f' then some (Char.ofNat 12)
  else if c = 'n' then some '\n'
  else if c = 'r' then some '\r'
  else if c = 't' then some '\t'
  else none

/-- Body of a JSON string after the opening quote: returns the decoded
characters and the remainder after the closing quote. Unescaped control
characters are rejected as in strict-mode json.loads; surrogate escape pairs
are combined; a lone surrogate escape, which Python would keep as a surrogate
code unit, maps through Char.ofNat (not exercised by any claim). -/
def parseStrBody : Nat → List Char → Option (List Char × List Char)
  | 0, _ => none
  | _, [] => none
  | Nat.succ fuel, c :: rest =>
    if c = dquoteC then some ([], rest)
    else if c = bslashC then
      match rest with
      | [] => none
      | e :: rest2 =>
        if e = 'u' then
          match rest2 with
          | a :: b :: c2 :: d :: rest3 =>
            match hexVal a, hexVal b, hexVal c2, hexVal d with
            | some ha, some hb, some hc, some hd =>
              let n := ((ha * 16 + hb) * 16 + hc) * 16 + hd
              if 0xD800 ≤ n ∧ n ≤ 0xDBFF then
                match rest3 with
                | e1 :: e2 :: a2 :: b2 :: c3 :: d2 :: rest4 =>
                  if e1 = bslashC ∧ e2 = 'u' then
                    match hexVal a2, hexVal b2, hexVal c3, hexVal d2 with
                    | some ha2, some hb2, some hc2, some hd2 =>
                      let n2 := ((ha2 * 16 + hb2) * 16 + hc2) * 16 + hd2
                      if 0xDC00 ≤ n2 ∧ n2 ≤ 0xDFFF then
                        match parseStrBody fuel rest4 with
                        | some (tl, rem) =>
                          some (Char.ofNat (0x10000 + (n - 0xD800) * 0x400 + (n2 - 0xDC00)) :: tl, rem)
                        | none => none
                      else
                        match parseStrBody fuel rest3 with
                        | some (tl, rem) => some (Char.ofNat n :: tl, rem)
                        | none => none
                    | _, _, _, _ =>
                      match parseStrBody fuel rest3 with
                      | some (tl, rem) => some (Char.ofNat n :: tl, rem)
                      | none => none
                  else
                    match parseStrBody fuel rest3 with
                    | some (tl, rem) => some (Char.ofNat n :: tl, rem)
                    | none => none
                | _ =>
                  match parseStrBody fuel rest3 with
                  | some (tl, rem) => some (Char.ofNat n :: tl, rem)
                  | none => none
              else
                match parseStrBody fuel rest3 with
                | some (tl, rem) => some (Char.ofNat n :: tl, rem)
                | none => none
            | _, _, _, _ => none
          | _ => none
        else
          match escChar e with
          | some ec =>
            match parseStrBody fuel rest2 with
            | some (tl, rem) => some (ec :: tl, rem)
            | none => none
          | none => none
    else if c.toNat < 32 then none
    else
      match parseStrBody fuel rest with
      | some (tl, rem) => some (c :: tl, rem)
      | none => none

def isDig (c : Char) : Bool := c.isDigit

/-- Optional fraction and exponent of a JSON number, mirroring the groups of the
Python NUMBER_RE: each group is included only when fully well formed, otherwise
the lexeme stops before it. -/
def numTail (sgn intPart rest : List Char) : Option (List Char × List Char) :=
  let fr : List Char × List Char :=
    match rest with
    | '.' :: r2 =>
      let ds := r2.takeWhile isDig
      if ds.isEmpty then (([] : List Char), rest) else ('.' :: ds, r2.dropWhile isDig)
    | _ => ([], rest)
  let fracPart := fr.1
  let rest2 := fr.2
  let ex : List Char × List Char :=
    match rest2 with
    | c :: r2 =>
      if c = 'e' ∨ c = 'E' then
        match r2 with
        | s :: r3 =>
          if s = '+' ∨ s = '-' then
            let ds := r3.takeWhile isDig
            if ds.isEmpty then (([] : List Char), rest2) else (c :: s :: ds, r3.dropWhile isDig)
          else
            let ds := r2.takeWhile isDig
            if ds.isEmpty then (([] : List Char), rest2) else (c :: ds, r2.dropWhile isDig)
        | [] => ([], rest2)
      else ([], rest2)
    | [] => ([], rest2)
  some (sgn ++ intPart ++ fracPart ++ ex.1, ex.2)

/-- JSON number lexing per the Python NUMBER_RE: optional minus, then 0 or a
nonzero-led digit run, then the optional groups from numTail. Returns the
lexeme and the remaining characters. -/
def parseNumber (cs : List Char) : Option (List Char × List Char) :=
  let sg : List Char × List Char :=
    match cs with
    | c :: r => if c = '-' then ([c], r) else (([] : List Char), cs)
    | [] => ([], [])
  let sgn := sg.1
  let cs1 := sg.2
  match cs1 with
  | [] => none
  | c :: r =>
    if c = '0' then numTail sgn [c] r
    else if c.isDigit then numTail sgn (cs1.takeWhile isDig) (cs1.dropWhile isDig)
    else none

mutual
/-- One JSON value starting at the given characters (leading whitespace
allowed), returning the value and the remainder. Mirrors the Python scanner,
including the NaN / Infinity / -Infinity constants it accepts by default. -/
def parseVal : Nat → List Char → Option (JValue × List Char)
  | 0, _ => none
  | Nat.succ fuel, cs0 =>
    let cs := skipJsonWs cs0
    match cs with
    | [] => none
    | c :: rest =>
      if c = dquoteC then
        match parseStrBody (rest.length + 1) rest with
        | some (chars, rem) => some (jstr (String.mk chars), rem)
        | none => none
      else if c = lbraceC then
        match skipJsonWs rest with
        | d :: rest2 =>
          if d = rbraceC then some (jobj [], rest2)
          else
            match parseObjItems fuel (d :: rest2) with
            | some (fs, rem) => some (jobj fs, rem)
            | none => none
        | [] => none
      else if c = '[' then
        match skipJsonWs rest with
        | d :: rest2 =>
          if d = ']' then some (jarr [], rest2)
          else
            match parseArrItems fuel (d :: rest2) with
            | some (vs, rem) => some (jarr vs, rem)
            | none => none
        | [] => none
      else if c = 't' then
        match rest with
        | 'r' :: 'u' :: 'e' :: rem => some (jbool true, rem)
        | _ => none
      else if c = 'f' then
        match rest with
        | 'a' :: 'l' :: 's' :: 'e' :: rem => some (jbool false, rem)
        | _ => none
      else if c = 'n' then
        match rest with
        | 'u' :: 'l' :: 'l' :: rem => some (jnull, rem)
        | _ => none
      else if c = 'N' then
        match rest with
        | 'a' :: 'N' :: rem => some (jnum "NaN", rem)
        | _ => none
      else if c = 'I' then
        match rest with
        | 'n' :: 'f' :: 'i' :: 'n' :: 'i' :: 't' :: 'y' :: rem => some (jnum "Infinity", rem)
        | _ => none
      else if c = '-' ∧ rest.head? = some 'I' then
        match rest with
        | 'I' :: 'n' :: 'f' :: 'i' :: 'n' :: 'i' :: 't' :: 'y' :: rem => some (jnum "-Infinity", rem)
        | _ => none
      else
        match parseNumber (c :: rest) with
        | some (lex, rem) => some (jnum (String.mk lex), rem)
        | none => none

/-- The items of a nonempty JSON array, positioned after the opening bracket
(and past any whitespace); consumes the closing bracket. -/
def parseArrItems : Nat → List Char → Option (List JValue × List Char)
  | 0, _ => none
  | Nat.succ fuel, cs =>
    match parseVal fuel cs with
    | none => none
    | some (v, rest) =>
      match skipJsonWs rest with
      | ',' :: rest2 =>
        match parseArrItems fuel rest2 with
        | some (vs, rem) => some (v :: vs, rem)
        | none => none
      | ']' :: rest2 => some ([v], rest2)
      | _ => none

/-- The entries of a nonempty JSON object, positioned after the opening brace
(and past any whitespace); consumes the closing brace. Keys must be strings. -/
def parseObjItems : Nat → List Char → Option (List (String × JValue) × List Char)
  | 0, _ => none
  | Nat.succ fuel, cs =>
    match skipJsonWs cs with
    | c :: rest =>
      if c = dquoteC then
        match parseStrBody (rest.length + 1) rest with
        | some (kchars, rest2) =>
          match skipJsonWs rest2 with
          | ':' :: rest3 =>
            match parseVal fuel rest3 with
            | none => none
            | some (v, rest4) =>
              match skipJsonWs rest4 with
              | ',' :: rest5 =>
                match parseObjItems fuel rest5 with
                | some (fs, rem) => some ((String.mk kchars, v) :: fs, rem)
                | none => none
              | d :: rest5 =>
                if d = rbraceC then some ([(String.mk kchars, v)], rest5)
                else none
              | [] => none
          | _ => none
        | none => none
      else none
    | [] => none
end

/-- Model of Python json.loads: one JSON document with nothing but whitespace
after it; none models a raised JSONDecodeError. -/
def py_json_loads (s : String) : Option JValue :=
  match parseVal (4 * s.length + 16) s.data with
  | some (v, rest) => if skipJsonWs rest = [] then some v else none
  | none => none

/-! Model of TOOL_BLOCK_RE and its findall.  The pattern is
three backticks, mcp, optional whitespace, a captured brace-delimited group
matched non-greedily (DOTALL), optional whitespace, three backticks. -/

/-- Character class of Python re \s over the ASCII range (the inputs exercised
here); whitespace beyond ASCII is not modelled. -/
def reWs (c : Char) : Bool :=
  c == ' ' || c == '\t' || c == '\n' || c == '\r' || c == Char.ofNat 11 || c == Char.ofNat 12

/-- Scan of the non-greedy group body after the opening brace: the group ends at
the first closing brace that is followed, after optional whitespace, by three
backticks. Returns the body (closing brace included) and the characters after
the three closing backticks. -/
def matchBody : List Char → Option (List Char × List Char)
  | [] => none
  | c :: rest =>
    if c = rbraceC then
      match rest.dropWhile reWs with
      | t1 :: t2 :: t3 :: rem =>
        if t1 = btickC ∧ t2 = btickC ∧ t3 = btickC then some ([c], rem)
        else
          match matchBody rest with
          | some (body, rem2) => some (c :: body, rem2)
          | none => none
      | _ =>
        match matchBody rest with
        | some (body, rem2) => some (c :: body, rem2)
        | none => none
    else
      match matchBody rest with
      | some (body, rem2) => some (c :: body, rem2)
      | none => none

/-- Attempt to match TOOL_BLOCK_RE exactly at the head of the character list,
returning the captured JSON group and the characters after the whole match. -/
def matchBlockAt (cs : List Char) : Option (String × List Char) :=
  match cs with
  | b1 :: b2 :: b3 :: m :: c :: p :: rest =>
    if b1 = btickC ∧ b2 = btickC ∧ b3 = btickC ∧ m = 'm' ∧ c = 'c' ∧ p = 'p' then
      match rest.dropWhile reWs with
      | h :: rest3 =>
        if h = lbraceC then
          match matchBody rest3 with
          | some (body, rem) => some (String.mk (lbraceC :: body), rem)
          | none => none
        else none
      | [] => none
    else none
  | _ => none

def findallF : Nat → List Char → List String
  | 0, _ => []
  | Nat.succ fuel, cs =>
    match cs with
    | [] => []
    | _ :: rest =>
      match matchBlockAt cs with
      | some (grp, after) => grp :: findallF fuel after
      | none => findallF fuel rest

/-- Model of TOOL_BLOCK_RE.findall(text): the captured groups of all
non-overlapping matches, in left-to-right textual order; scanning resumes after
each whole match, or one character further on failure, as in re.findall. -/
def findall (text : String) : List String :=
  findallF (text.length + 1) text.data

/-- A parsed tool call, as built by parse_tool_call in ollama_bot.py. -/
structure ToolSpec where
  tool : String
  arguments : List (String × JValue)

/-- A parsed resource read, as built by parse_resource_read in ollama_bot.py. -/
structure ResSpec where
  uri : String
deriving DecidableEq

def listStartsWith : List Char → List Char → Bool
  | _, [] => true
  | [], _ :: _ => false
  | c :: cs, p :: ps => c == p && listStartsWith cs ps

/-- Model of Python str.startswith. -/
def strStartsWith (s pat : String) : Bool := listStartsWith s.data pat.data

/-- Classification of one fenced block by the loop body of parse_tool_call:
json.loads, then data.get of tool and of arguments with an empty-dict default,
kept only when the tool is a string and the arguments a dict; none models both
the except path and a failed check. -/
def toolOfBlock (m : String) : Option ToolSpec :=
  match py_json_loads m with
  | some (jobj fields) =>
    match jget fields "tool", jgetD fields "arguments" (jobj []) with
    | some (jstr t), jobj args => some ⟨t, args⟩
    | _, _ => none
  | _ => none

/-- Classification of one fenced block by the loop body of parse_resource_read:
json.loads, then data.get of resource, kept only when it is a string starting
with the restaurant:// scheme. -/
def resOfBlock (m : String) : Option ResSpec :=
  match py_json_loads m with
  | some (jobj fields) =>
    match jget fields "resource" with
    | some (jstr u) => if strStartsWith u "restaurant://" then some ⟨u⟩ else none
    | _ => none
  | _ => none

/-- One iteration of the tool loop: append the classified call, or continue on
the except path. -/
def toolLoopStep (acc : List ToolSpec) (m : String) : List ToolSpec :=
  match toolOfBlock m with
  | some s => acc ++ [s]
  | none => acc

/-- Model of parse_tool_call: the accumulation loop over every fenced block. -/
def parse_tool_call (text : String) : List ToolSpec :=
  (findall text).foldl toolLoopStep []

/-- One iteration of the resource loop: append the classified read, or continue
on the except path. -/
def resLoopStep (acc : List ResSpec) (m : String) : List ResSpec :=
  match resOfBlock m with
  | some s => acc ++ [s]
  | none => acc

/-- Model of parse_resource_read: the accumulation loop over every fenced
block. -/
def parse_resource_read (text : String) : List ResSpec :=
  (findall text).foldl resLoopStep []

/-! Discovery caches.  The module-level cache variables of ollama_bot.py become
explicit state records, time.time() becomes a now argument, and the whole HTTP
round trip (requests.get, raise_for_status, r.json()) becomes a fetch argument:
none when any of those raise, some body when the response parses. -/

/-- Lexicographic comparison of character lists by code point, the order Python
string comparison uses. -/
def listLexLe : List Char → List Char → Bool
  | [], _ => true
  | _ :: _, [] => false
  | a :: as, b :: bs =>
    if a.toNat < b.toNat then true
    else if b.toNat < a.toNat then false
    else listLexLe as bs

/-- Python string comparison a <= b. -/
def pyStrLe (a b : String) : Bool := listLexLe a.data b.data

/-- Insertion of a value into a sorted list of strings. -/
def insertSorted (x : String) : List String → List String
  | [] => [x]
  | y :: ys => if pyStrLe x y then x :: y :: ys else y :: insertSorted x ys

/-- Python sorted(set(names)) over strings: the distinct values in increasing
order, string comparison being lexicographic by code point on both sides. -/
def pySortedSet (l : List String) : List String :=
  l.dedup.foldr insertSorted []

/-- Conversion of collected values to strings for sorted(set(...)). A collected
value of any other type is modelled as a failure: sorting values of mixed types
raises TypeError in Python (a homogeneous non-string list would not, a corner
no claim exercises). -/
def asStrList : List JValue → Option (List String)
  | [] => some []
  | jstr s :: rest => (asStrList rest).map (fun t => s :: t)
  | _ :: _ => none

/-- The list comprehension of the dict branch of discover_tools: t.get of name
for every element, kept when truthy; a non-dict element raises AttributeError,
modelled as none. -/
def collectNames : List JValue → Option (List JValue)
  | [] => some []
  | jobj f :: rest =>
    match collectNames rest with
    | some vs =>
      let v := (jget f "name").getD jnull
      some (if jtruthy v then v :: vs else vs)
    | none => none
  | _ :: _ => none

/-- Body of the try block of discover_tools after the fetch: data.get of tools
with an empty-list default, the dict-shaped / plain branch on the first
element, and normalization to sorted(set(names)); none models any raised
exception, which the caller turns into keeping the previous cache. -/
def refresh_tools (fetch : Option JValue) : Option (List String) :=
  match fetch with
  | none => none
  | some data =>
    match data with
    | jobj fields =>
      let tools := jgetD fields "tools" (jarr [])
      let cond : Option Bool :=
        if jtruthy tools then (pyIndex0 tools).map isObj else some false
      match cond with
      | none => none
      | some true =>
        match pyIter tools with
        | some elems =>
          match collectNames elems with
          | some vs =>
            match asStrList vs with
            | some names => some (pySortedSet names)
            | none => none
          | none => none
        | none => none
      | some false =>
        match pyIter tools with
        | some elems => some (pySortedSet (elems.map pystr))
        | none => none
    | _ => none

/-- The pair of module-level cache variables for tools. -/
structure ToolCache where
  cached_tools : List String
  last_refresh : Int
deriving DecidableEq

/-- Model of discover_tools: returns the new cache state, the returned list and
whether the provider was contacted at all on this call. -/
def discover_tools (ttl : Int) (st : ToolCache) (force : Bool) (now : Int)
    (fetch : Option JValue) : ToolCache × List String × Bool :=
  if force = false ∧ st.cached_tools ≠ [] ∧ now - st.last_refresh < ttl then
    (st, st.cached_tools, false)
  else
    match refresh_tools fetch with
    | some names => (⟨names, now⟩, names, true)
    | none => (st, st.cached_tools, true)

/-- The uri-collecting loop of discover_resources: it.get of uri for every
element, appended when truthy; a non-dict element raises AttributeError,
modelled as none. -/
def collectUris : List JValue → Option (List JValue)
  | [] => some []
  | jobj f :: rest =>
    match collectUris rest with
    | some vs =>
      let v := (jget f "uri").getD jnull
      some (if jtruthy v then v :: vs else vs)
    | none => none
  | _ :: _ => none

/-- Body of the try block of discover_resources after the fetch, mirroring
refresh_tools for the resources key. -/
def refresh_resources (fetch : Option JValue) : Option (List String) :=
  match fetch with
  | none => none
  | some data =>
    match data with
    | jobj fields =>
      let items := jgetD fields "resources" (jarr [])
      match pyIter items with
      | some elems =>
        match collectUris elems with
        | some vs =>
          match asStrList vs with
          | some uris => some (pySortedSet uris)
          | none => none
        | none => none
      | none => none
    | _ => none

/-- The pair of module-level cache variables for resources. -/
structure ResCache where
  cached_resources : List String
  last_res_refresh : Int
deriving DecidableEq

/-- Model of discover_resources, shaped exactly as discover_tools. -/
def discover_resources (ttl : Int) (st : ResCache) (force : Bool) (now : Int)
    (fetch : Option JValue) : ResCache × List String × Bool :=
  if force = false ∧ st.cached_resources ≠ [] ∧ now - st.last_res_refresh < ttl then
    (st, st.cached_resources, false)
  else
    match refresh_resources fetch with
    | some uris => (⟨uris, now⟩, uris, true)
    | none => (st, st.cached_resources, true)

/-! The instruction preamble of build_system_prompt.  The adjacent string
literals that Python concatenates at compile time are grouped into the chunks
between the two interpolation points, so the builder is a concatenation of
fixed literals with the tool and resource enumerations spliced in. -/

def basePrompt : String :=
  "You are a helpful and concise assistant. Respond in English unless specifically requested otherwise. do not allucinate, if you don\x27t know the answer, say so or use the tools to find the answer. do not pass the turn to the user if you didn\x27t end your response. \n"

def howtoA : String :=
  "if you decide to use tools, do as follows:\nYou are connected to a set of external tools via the MCP protocol.\nAvailable MCP tools: "

def howtoB : String := ".\nAvailable MCP resources: "

def howtoC : String :=
  ".\n\nYou have complete autonomy to decide whether to:\n- Call one or more of the available tools to gather or process information.\n- Read a resource.\n- Or answer directly without using any tools.\n\nWhen calling tools or reading resources:\n1. Respond with one or more valid MCP blocks in the exact JSON format shown below.\n2. You can include multiple MCP blocks in sequence if needed.\n3. Wrap each block in triple backticks like this:\n\n"

def toolCallExample : String :=
  "Tool call:\n```mcp\n\x7b\"tool\":\"<TOOL_NAME>\",\"arguments\":\x7b\"<PARAMETER>\":\"<VALUE>\"\x7d\x7d\n```\n\n"

def resReadExample : String :=
  "Resource read:\n```mcp\n\x7b\"resource\":\"<COMPLETE_URI>\"\x7d\n```\n\n"

def howtoD : String :=
  "Rules:\n- Pick the most relevant tools for the user\x27s request. You can use multiple tools if needed.\n- If you use tools, do not explain the calls — just output the MCP blocks.\n- You can chain multiple tool calls in sequence to accomplish complex tasks.\n- If no tools are needed, respond normally in English.\n\nExample multiple tool calls:\n```mcp\n\x7b\"tool\":\"rag_search\",\"arguments\":\x7b\"query\":\"restaurant menu\"\x7d\x7d\n```\n```mcp\n\x7b\"tool\":\"file_search\",\"arguments\":\x7b\"query\":\"menu.txt\"\x7d\x7d\n```\n\nExample resource read:\n```mcp\n\x7b\"resource\":\"restaurant://menu/today\"\x7d\n```\n"

def noToolsSuffix : String :=
  "Currently no MCP tools are available. Do not generate ```mcp``` blocks."

/-- The full preamble of the tools-available branch with the two enumerations
spliced into the fixed chunks. -/
def promptWithTools (elenco elencoRes : String) : String :=
  basePrompt ++ (howtoA ++ elenco ++ howtoB ++ elencoRes ++ howtoC
    ++ toolCallExample ++ resReadExample ++ howtoD)

/-- Model of build_system_prompt.  The source function takes only the tool
list; its call to discover_resources(force=False) is made explicit here by
threading the resource cache state, the clock and the provider response, and
the possibly updated cache state is returned alongside the prompt. -/
def build_system_prompt (ttl : Int) (tools : List String) (rst : ResCache)
    (now : Int) (fetch : Option JValue) : String × ResCache :=
  if tools ≠ [] then
    let elenco := String.intercalate ", " tools
    let r := discover_resources ttl rst false now fetch
    let resources := r.2.1
    let elencoRes := if resources ≠ [] then String.intercalate ", " resources else "(no resources)"
    (promptWithTools elenco elencoRes, r.1)
  else
    (basePrompt ++ noToolsSuffix, rst)

/-! Dispatch.  The per-request HTTP helpers call_client_http and
read_client_resource return a parsed JSON body; the dispatch loop in main only
observes the truthiness of its ok field, its error field rendered into an
f-string, and the rendering of its result payload into the message.  That
observation is modelled by ProviderResp, and the provider itself by a function
argument, so the theorems quantify over every provider behavior. -/

/-- The view the dispatch loop takes of one provider response: ok is the
truthiness of response.get of ok, error the rendering of response.get of
error, and result the rendering of the result payload into the message (the
json.dumps rendering for tool calls, the text field rendering for resource
reads). -/
structure ProviderResp where
  ok : Bool
  error : String
  result : String
deriving DecidableEq

/-- The valid-tools enumeration of the unknown-tool error message:
', '.join(tool_names) if tool_names else '(none)'. -/
def validToolsStr (tool_names : List String) : String :=
  if tool_names ≠ [] then String.intercalate ", " tool_names else "(none)"

/-- Body of the tool loop of main for one parsed tool call: the cache
membership check, then (only when the name is cached) the provider call.  The
second component records the provider invocations made, so that never calling
the provider is the statement that this log is empty. -/
def dispatch_tool (tool_names : List String)
    (call : String → List (String × JValue) → ProviderResp) (spec : ToolSpec) :
    String × List (String × List (String × JValue)) :=
  if spec.tool ∉ tool_names then
    ("Error: tool \x27" ++ spec.tool ++ "\x27 not available. Valid tools: "
      ++ validToolsStr tool_names, [])
  else
    let r := call spec.tool spec.arguments
    (if r.ok = false then
       "Error executing MCP tool \x27" ++ spec.tool ++ "\x27: " ++ r.error
     else
       "MCP tool result \x27" ++ spec.tool ++ "\x27: " ++ r.result,
     [(spec.tool, spec.arguments)])

/-- Body of the resource loop of main for one parsed resource read. -/
def resource_msg (readRes : String → ProviderResp) (spec : ResSpec) : String :=
  let r := readRes spec.uri
  if r.ok = false then
    "Error reading MCP resource \x27" ++ spec.uri ++ "\x27: " ++ r.error
  else
    "Resource content " ++ spec.uri ++ ":\n" ++ r.result

/-- The dispatch section of main for one assistant reply: the resource loop
filling resource_results, then the tool loop filling tool_results, then
all_results as their concatenation. -/
def dispatch_batch (tool_names : List String) (readRes : String → ProviderResp)
    (call : String → List (String × JValue) → ProviderResp) (text : String) :
    List String :=
  let resource_results :=
    (parse_resource_read text).foldl (fun acc s => acc ++ [resource_msg readRes s]) []
  let tool_results :=
    (parse_tool_call text).foldl (fun acc s => acc ++ [(dispatch_tool tool_names call s).1]) []
  resource_results ++ tool_results

def finalizeSuffix : String :=
  "\n\nNow provide the final response for the user, in English, without ```mcp``` blocks."

/-- The injected synthetic user message of main: present exactly when the batch
produced at least one result, and then the double-newline join of all results
followed by the finalization instruction. -/
def injected_message (tool_names : List String) (readRes : String → ProviderResp)
    (call : String → List (String × JValue) → ProviderResp) (text : String) :
    Option String :=
  if dispatch_batch tool_names readRes call text ≠ [] then
    some (String.intercalate "\n\n" (dispatch_batch tool_names readRes call text)
      ++ finalizeSuffix)
  else none

/-! The capability session of mcp_client.py.  The three app.state fields are
modelled as flags (set iff the Python field is not None), every awaited setup
sub-step by a Bool saying whether it raises, and the observable effects by a
trace of actions, so that teardown order is a statement about the trace. -/

/-- The three connection-state fields of app.state: the transport context
manager, the session context manager and the live session. -/
structure ConnState where
  http_cm : Bool
  session_cm : Bool
  session : Bool
deriving DecidableEq

/-- Outcomes of the awaited sub-steps of ensure_session: the transport
enter, the stream-tuple unpack, the ClientSession construction, the session
enter and the initialize handshake. -/
structure NetSteps where
  httpEnterOk : Bool
  unpackOk : Bool
  ctorOk : Bool
  sessEnterOk : Bool
  initOk : Bool
deriving DecidableEq

/-- Observable connection actions: successful completion of the two setup
enters, and the two teardown exits issued by the except block. -/
inductive Act where
  | enterHttp
  | enterSess
  | closeSess
  | closeHttp
deriving DecidableEq

/-- The error text of the raised HTTPException:
MCP connection failed to target, followed by the cause. -/
def connFailMsg (target cause : String) : String :=
  "MCP connection failed to " ++ target ++ ": " ++ cause

/-- The except block of ensure_session: close the session context manager if
set, then the transport context manager if set (teardown errors swallowed),
reset every field to None, and surface the connection error. -/
def sessionFail (target cause : String) (s : ConnState) (tr : List Act) :
    ConnState × List Act × Option String :=
  let tr1 := if s.session_cm then tr ++ [Act.closeSess] else tr
  let tr2 := if s.http_cm then tr1 ++ [Act.closeHttp] else tr1
  (⟨false, false, false⟩, tr2, some (connFailMsg target cause))

/-- Model of ensure_session: a no-op when a session exists, otherwise the
sub-steps in source order, with the except block on the first failure.  The
trace records completed setup enters and issued teardown exits; the third
component is the surfaced error, none on success. -/
def ensure_session (target cause : String) (st : ConnState) (o : NetSteps) :
    ConnState × List Act × Option String :=
  if st.session then (st, [], none)
  else
    let s1 : ConnState := { st with http_cm := true }
    if o.httpEnterOk = false then sessionFail target cause s1 []
    else if o.unpackOk = false then sessionFail target cause s1 [Act.enterHttp]
    else if o.ctorOk = false then sessionFail target cause s1 [Act.enterHttp]
    else
      let s2 : ConnState := { s1 with session_cm := true }
      if o.sessEnterOk = false then sessionFail target cause s2 [Act.enterHttp]
      else
        let s3 : ConnState := { s2 with session := true }
        if o.initOk = false then sessionFail target cause s3 [Act.enterHttp, Act.enterSess]
        else (s3, [Act.enterHttp, Act.enterSess], none)

/-! Substring helpers used to state containment properties of generated
messages, and concrete inputs used by the witnesses below. -/

/-- Whether pat occurs as a contiguous segment of l. -/
def listHasSeg : List Char → List Char → Bool
  | [], pat => pat.isEmpty
  | l@(_ :: rest), pat => listStartsWith l pat || listHasSeg rest pat

/-- Whether pat occurs as a contiguous substring of s. -/
def strHasSeg (s pat : String) : Bool := listHasSeg s.data pat.data

/-- A reply whose single fenced block carries both a tool key and a resource
key. -/
def dualText : String :=
  "```mcp\n\x7b\"tool\":\"echo\",\"arguments\":\x7b\x7d,\"resource\":\"restaurant://menu/today\"\x7d\n```"

/-- The JSON group captured from dualText. -/
def dualBlock : String :=
  "\x7b\"tool\":\"echo\",\"arguments\":\x7b\x7d,\"resource\":\"restaurant://menu/today\"\x7d"

/-- A reply with two tool-call blocks followed by one resource-read block. -/
def batchText : String :=
  "```mcp\n\x7b\"tool\":\"echo\",\"arguments\":\x7b\"message\":\"hi\"\x7d\x7d\n```\n```mcp\n\x7b\"tool\":\"rag_search\",\"arguments\":\x7b\"query\":\"menu\"\x7d\x7d\n```\n```mcp\n\x7b\"resource\":\"restaurant://menu/today\"\x7d\n```"

/-- A reply with a single valid resource-read block. -/
def resText : String :=
  "```mcp\n\x7b\"resource\":\"restaurant://menu/today\"\x7d\n```"

/-- A concrete always-succeeding resource reader. -/
def read0 : String → ProviderResp := fun _ => ⟨true, "", "MENU"⟩

/-- A concrete always-succeeding tool caller. -/
def call0 : String → List (String × JValue) → ProviderResp := fun _ _ => ⟨true, "", "\"hi\""⟩

/-- A resource cache holding one fresh entry. -/
def rstA : ResCache := ⟨["restaurant://a"], 100⟩

/-- A resource cache differing from rstA only in the cached URI. -/
def rstB : ResCache := ⟨["restaurant://b"], 100⟩

/-- A provider body listing one resource. -/
def resFetchBody : JValue :=
  jobj [("resources", jarr [jobj [("uri", jstr "restaurant://menu/today")]])]

/-- A provider body listing tool names with a duplicate, out of order. -/
def toolsFetchBody : JValue :=
  jobj [("tools", jarr [jstr "b", jstr "a", jstr "b"])]

/-! Helper lemmas. -/

/-- The accumulation loop of parse_tool_call is the filterMap of its block
classifier. -/
theorem toolLoop_filterMap (l : List String) (acc : List ToolSpec) :
    l.foldl toolLoopStep acc = acc ++ l.filterMap toolOfBlock := by
  induction l generalizing acc with
  | nil => simp
  | cons x xs ih =>
    cases hfx : toolOfBlock x <;>
      simp [List.filterMap_cons, hfx, ih, toolLoopStep]

/-- The accumulation loop of parse_resource_read is the filterMap of its block
classifier. -/
theorem resLoop_filterMap (l : List String) (acc : List ResSpec) :
    l.foldl resLoopStep acc = acc ++ l.filterMap resOfBlock := by
  induction l generalizing acc with
  | nil => simp
  | cons x xs ih =>
    cases hfx : resOfBlock x <;>
      simp [List.filterMap_cons, hfx, ih, resLoopStep]

/-- The result-message loops of main are the map of their message builder. -/
theorem foldl_snoc {α β : Type} (g : α → β) (l : List α) (acc : List β) :
    l.foldl (fun a x => a ++ [g x]) acc = acc ++ l.map g := by
  induction l generalizing acc with
  | nil => simp
  | cons x xs ih => simp [ih]

theorem filterMap_length_countP {α β : Type} (f : α → Option β) (l : List α) :
    (l.filterMap f).length = l.countP (fun x => (f x).isSome) := by
  induction l with
  | nil => simp
  | cons x xs ih =>
    cases hfx : f x <;> simp [List.filterMap_cons, hfx, List.countP_cons, ih]

theorem listStartsWith_append (p b : List Char) : listStartsWith (p ++ b) p = true := by
  induction p with
  | nil => simp [listStartsWith]
  | cons c cs ih => simp [listStartsWith, ih]

theorem listHasSeg_of_startsWith (l p : List Char) (h : listStartsWith l p = true) :
    listHasSeg l p = true := by
  cases l with
  | nil =>
    cases p with
    | nil => simp [listHasSeg]
    | cons c cs => simp [listStartsWith] at h
  | cons c cs => simp [listHasSeg, h]

theorem listHasSeg_append_right (a b p : List Char) (h : listHasSeg b p = true) :
    listHasSeg (a ++ b) p = true := by
  induction a with
  | nil => simpa using h
  | cons c cs ih => simp [listHasSeg, ih]

theorem listHasSeg_sand (a p b : List Char) : listHasSeg (a ++ (p ++ b)) p = true :=
  listHasSeg_append_right a _ p (listHasSeg_of_startsWith _ _ (listStartsWith_append p b))

theorem str_append_assoc (a b c : String) : (a ++ b) ++ c = a ++ (b ++ c) := by
  apply String.ext
  simp [String.data_append, List.append_assoc]

theorem strHasSeg_append_right (a b p : String) (h : strHasSeg b p = true) :
    strHasSeg (a ++ b) p = true := by
  unfold strHasSeg at h ⊢
  rw [String.data_append]
  exact listHasSeg_append_right _ _ _ h

theorem strHasSeg_self_left (p b : String) : strHasSeg (p ++ b) p = true := by
  unfold strHasSeg
  rw [String.data_append]
  exact listHasSeg_of_startsWith _ _ (listStartsWith_append _ _)

/-- The surfaced connection error names its target. -/
theorem connFailMsg_names_target (target cause : String) :
    strHasSeg (connFailMsg target cause) target = true := by
  unfold connFailMsg
  rw [str_append_assoc, str_append_assoc]
  exact strHasSeg_append_right _ _ _ (strHasSeg_self_left _ _)

theorem listLexLe_total : ∀ a b : List Char, listLexLe a b = true ∨ listLexLe b a = true := by
  intro a
  induction a with
  | nil => intro b; left; rfl
  | cons x xs ih =>
    intro b
    cases b with
    | nil => right; rfl
    | cons y ys =>
      rcases Nat.lt_trichotomy x.toNat y.toNat with h | h | h
      · left
        simp [listLexLe, h]
      · have h1 : ¬ x.toNat < y.toNat := by omega
        have h2 : ¬ y.toNat < x.toNat := by omega
        rcases ih ys with h3 | h3
        · left
          simp [listLexLe, h1, h2, h3]
        · right
          simp [listLexLe, h1, h2, h3]
      · right
        simp [listLexLe, h]

theorem listLexLe_trans :
    ∀ a b c : List Char, listLexLe a b = true → listLexLe b c = true →
      listLexLe a c = true := by
  intro a
  induction a with
  | nil => intro b c _ _; rfl
  | cons x xs ih =>
    intro b c hab hbc
    cases b with
    | nil => simp [listLexLe] at hab
    | cons y ys =>
      cases c with
      | nil => simp [listLexLe] at hbc
      | cons z zs =>
        rcases Nat.lt_trichotomy x.toNat y.toNat with hxy | hxy | hxy
        · rcases Nat.lt_trichotomy y.toNat z.toNat with hyz | hyz | hyz
          · simp [listLexLe, Nat.lt_trans hxy hyz]
          · simp [listLexLe, hyz ▸ hxy]
          · simp [listLexLe, Nat.lt_asymm hyz, hyz] at hbc
        · rcases Nat.lt_trichotomy y.toNat z.toNat with hyz | hyz | hyz
          · simp [listLexLe, hxy ▸ hyz]
          · have hxz : x.toNat = z.toNat := hxy.trans hyz
            have e1 : ¬ x.toNat < y.toNat := by omega
            have e2 : ¬ y.toNat < x.toNat := by omega
            have e3 : ¬ y.toNat < z.toNat := by omega
            have e4 : ¬ z.toNat < y.toNat := by omega
            have e5 : ¬ x.toNat < z.toNat := by omega
            have e6 : ¬ z.toNat < x.toNat := by omega
            simp [listLexLe, e1, e2] at hab
            simp [listLexLe, e3, e4] at hbc
            simp [listLexLe, e5, e6]
            exact ih ys zs hab hbc
          · simp [listLexLe, Nat.lt_asymm hyz, hyz] at hbc
        · simp [listLexLe, Nat.lt_asymm hxy, hxy] at hab

theorem pyStrLe_total (a b : String) : pyStrLe a b = true ∨ pyStrLe b a = true :=
  listLexLe_total a.data b.data

theorem pyStrLe_trans (a b c : String) (h1 : pyStrLe a b = true)
    (h2 : pyStrLe b c = true) : pyStrLe a c = true :=
  listLexLe_trans a.data b.data c.data h1 h2

theorem insertSorted_perm (x : String) (l : List String) :
    List.Perm (insertSorted x l) (x :: l) := by
  induction l with
  | nil => rfl
  | cons y ys ih =>
    unfold insertSorted
    by_cases h : pyStrLe x y = true
    · rw [if_pos h]
    · rw [if_neg h]
      exact (ih.cons y).trans (List.Perm.swap x y ys)

theorem insertSorted_sorted (x : String) (l : List String)
    (h : l.Sorted (fun a b => pyStrLe a b = true)) :
    (insertSorted x l).Sorted (fun a b => pyStrLe a b = true) := by
  induction l with
  | nil => simp [insertSorted]
  | cons y ys ih =>
    unfold insertSorted
    by_cases hxy : pyStrLe x y = true
    · rw [if_pos hxy]
      rw [List.sorted_cons]
      refine ⟨?_, h⟩
      intro b hb
      rcases List.mem_cons.mp hb with rfl | hb
      · exact hxy
      · exact pyStrLe_trans x y b hxy ((List.sorted_cons.mp h).1 b hb)
    · rw [if_neg hxy]
      rw [List.sorted_cons] at h ⊢
      refine ⟨?_, ih h.2⟩
      intro b hb
      have hb2 : b ∈ x :: ys := (insertSorted_perm x ys).subset hb
      rcases List.mem_cons.mp hb2 with rfl | hb2
      · rcases pyStrLe_total b y with h' | h'
        · exact absurd h' hxy
        · exact h'
      · exact h.1 b hb2

theorem pySortedSet_perm (l : List String) : List.Perm (pySortedSet l) l.dedup := by
  unfold pySortedSet
  induction l.dedup with
  | nil => rfl
  | cons x xs ih => exact (insertSorted_perm x _).trans (ih.cons x)

theorem pySortedSet_sorted (l : List String) :
    (pySortedSet l).Sorted (fun a b => pyStrLe a b = true) := by
  unfold pySortedSet
  induction l.dedup with
  | nil => simp
  | cons x xs ih => exact insertSorted_sorted x _ ih

theorem pySortedSet_nodup (l : List String) : (pySortedSet l).Nodup :=
  ((pySortedSet_perm l).nodup_iff).mpr (List.nodup_dedup l)

/-- Every successful normalization of refresh_tools is a sorted, duplicate-free
name list. -/
theorem refresh_tools_sorted (fetch : Option JValue) (names : List String)
    (h : refresh_tools fetch = some names) :
    names.Sorted (fun a b => pyStrLe a b = true) ∧ names.Nodup := by
  unfold refresh_tools at h
  dsimp only at h
  repeat' split at h
  all_goals first
    | (injection h with h'; subst h'; exact ⟨pySortedSet_sorted _, pySortedSet_nodup _⟩)
    | injection h

/-- Every classified resource read passed the scheme check. -/
theorem resOfBlock_scheme (m : String) (r : ResSpec) (h : resOfBlock m = some r) :
    strStartsWith r.uri "restaurant://" = true := by
  unfold resOfBlock at h
  repeat' split at h
  all_goals first
    | (injection h with h'; subst h'; simp_all)
    | injection h

/-! Claim theorems. -/

/-- C2: for every input text, parse_tool_call and parse_resource_read return
exactly the well-formed blocks of their shape, as classified by toolOfBlock and
resOfBlock, in original left-to-right textual order (the order of findall), and
each returns as many requests as there are blocks its classifier accepts, so a
malformed block contributes no request, no error, and does not abort extraction
of the remaining blocks. -/
theorem parser_extracts_wellformed_in_order (text : String) :
    parse_tool_call text = (findall text).filterMap toolOfBlock ∧
    parse_resource_read text = (findall text).filterMap resOfBlock ∧
    (parse_tool_call text).length
      = (findall text).countP (fun m => (toolOfBlock m).isSome) ∧
    (parse_resource_read text).length
      = (findall text).countP (fun m => (resOfBlock m).isSome) := by
  have h1 : parse_tool_call text = (findall text).filterMap toolOfBlock := by
    unfold parse_tool_call
    simpa using toolLoop_filterMap (findall text) []
  have h2 : parse_resource_read text = (findall text).filterMap resOfBlock := by
    unfold parse_resource_read
    simpa using resLoop_filterMap (findall text) []
  exact ⟨h1, h2, by rw [h1, filterMap_length_countP],
    by rw [h2, filterMap_length_countP]⟩

/-- C10: every resource read the parser extracts has a URI starting with the
literal restaurant:// scheme, and a block whose resource value is a string
outside that scheme is classified to nothing, so the orchestrator never issues
a resource read outside the scheme. -/
theorem resource_reads_scheme_restricted :
    (∀ (text : String) (r : ResSpec), r ∈ parse_resource_read text →
       strStartsWith r.uri "restaurant://" = true) ∧
    (∀ (m : String) (fields : List (String × JValue)) (u : String),
       py_json_loads m = some (JValue.jobj fields) →
       jget fields "resource" = some (JValue.jstr u) →
       strStartsWith u "restaurant://" = false →
       resOfBlock m = none) := by
  constructor
  · intro text r hr
    have he : parse_resource_read text = (findall text).filterMap resOfBlock := by
      unfold parse_resource_read
      simpa using resLoop_filterMap (findall text) []
    rw [he] at hr
    rcases List.mem_filterMap.mp hr with ⟨m, _, hm⟩
    exact resOfBlock_scheme m r hm
  · intro m fields u h1 h2 h3
    simp [resOfBlock, h1, h2, h3]

/-- C10 witness: the theorem applied to a concrete reply containing one
in-scheme resource block. -/
theorem resource_reads_scheme_restricted_check :
    strStartsWith (ResSpec.mk "restaurant://menu/today").uri "restaurant://" = true :=
  resource_reads_scheme_restricted.1 resText ⟨"restaurant://menu/today"⟩ (by decide)

/-- C3: when the provider round trip of discover_tools fails (the fetch raises,
modelled by the none argument), the cached list and its timestamp are left
unchanged and the previous list is returned; the function is total, so no error
propagates to the caller. -/
theorem discover_tools_failure_keeps_cache (ttl : Int) (st : ToolCache)
    (force : Bool) (now : Int) :
    (discover_tools ttl st force now none).1 = st ∧
    (discover_tools ttl st force now none).2.1 = st.cached_tools := by
  unfold discover_tools
  split <;> simp [refresh_tools]

/-- C1: when a parsed tool call names a tool outside the cached list, dispatch
returns the error message naming the tool and enumerating the currently valid
names, its provider-invocation log is empty, and the outcome is identical for
every provider, so the provider's call_tool is never invoked. -/
theorem unknown_tool_never_calls_provider (tool_names : List String)
    (call call2 : String → List (String × JValue) → ProviderResp)
    (spec : ToolSpec) (h : spec.tool ∉ tool_names) :
    dispatch_tool tool_names call spec =
      ("Error: tool \x27" ++ spec.tool ++ "\x27 not available. Valid tools: "
        ++ validToolsStr tool_names, []) ∧
    dispatch_tool tool_names call spec = dispatch_tool tool_names call2 spec := by
  constructor <;> simp [dispatch_tool, h]

/-- C1 witness: the theorem applied to an unknown tool name against a one-tool
cache. -/
theorem unknown_tool_never_calls_provider_check :
    dispatch_tool ["echo"] call0 ⟨"frobnicate", []⟩ =
      ("Error: tool \x27frobnicate\x27 not available. Valid tools: echo", []) := by
  have h := unknown_tool_never_calls_provider ["echo"] call0 call0
    ⟨"frobnicate", []⟩ (by decide)
  rw [h.1]
  rfl

/-- C7: discover_tools contacts the provider exactly when force is set, or the
cached list is empty, or its age has reached the TTL; a successful refresh
normalizes the fetched list to a sorted, duplicate-free name list that replaces
the cache entry wholesale together with its timestamp; in every other case the
cached list is returned unchanged without contacting the provider. -/
theorem discover_tools_refresh_policy (ttl : Int) (st : ToolCache) (force : Bool)
    (now : Int) (fetch : Option JValue) :
    ((discover_tools ttl st force now fetch).2.2 = true ↔
      (force = true ∨ st.cached_tools = [] ∨ ttl ≤ now - st.last_refresh)) ∧
    ((discover_tools ttl st force now fetch).2.2 = false →
      (discover_tools ttl st force now fetch).1 = st ∧
      (discover_tools ttl st force now fetch).2.1 = st.cached_tools) ∧
    (∀ names, refresh_tools fetch = some names →
      (discover_tools ttl st force now fetch).2.2 = true →
      (discover_tools ttl st force now fetch).1 = ⟨names, now⟩ ∧
      (discover_tools ttl st force now fetch).2.1 = names ∧
      names.Sorted (fun a b => pyStrLe a b = true) ∧ names.Nodup) := by
  by_cases hc : (force = false ∧ st.cached_tools ≠ [] ∧ now - st.last_refresh < ttl)
  · have hd : discover_tools ttl st force now fetch = (st, st.cached_tools, false) := by
      unfold discover_tools
      rw [if_pos hc]
    obtain ⟨hf, hne, hlt⟩ := hc
    refine ⟨?_, ?_, ?_⟩
    · rw [hd]
      simp only [Bool.false_eq_true, false_iff]
      rintro (h | h | h)
      · rw [hf] at h
        exact Bool.false_ne_true h
      · exact hne h
      · exact absurd hlt (not_lt.mpr h)
    · rw [hd]
      intro
      exact ⟨rfl, rfl⟩
    · intro names _ hct
      rw [hd] at hct
      exact absurd hct (by simp)
  · have hcond : force = true ∨ st.cached_tools = [] ∨ ttl ≤ now - st.last_refresh := by
      by_contra hno
      push_neg at hno
      obtain ⟨h1, h2, h3⟩ := hno
      exact hc ⟨by simpa using h1, h2, h3⟩
    cases hrf : refresh_tools fetch with
    | none =>
      have hd : discover_tools ttl st force now fetch = (st, st.cached_tools, true) := by
        unfold discover_tools
        rw [if_neg hc, hrf]
      refine ⟨?_, ?_, ?_⟩
      · rw [hd]
        simpa using hcond
      · rw [hd]
        intro h
        exact absurd h (by simp)
      · intro names hr
        exact absurd hr (by simp)
    | some names0 =>
      have hd : discover_tools ttl st force now fetch = (⟨names0, now⟩, names0, true) := by
        unfold discover_tools
        rw [if_neg hc, hrf]
      refine ⟨?_, ?_, ?_⟩
      · rw [hd]
        simpa using hcond
      · rw [hd]
        intro h
        exact absurd h (by simp)
      · intro names hr _
        injection hr with he
        subst he
        exact ⟨by rw [hd], by rw [hd], refresh_tools_sorted fetch names0 hrf⟩

/-- C7 witness: the theorem applied to a cold cache and a provider body with
duplicate, unsorted names. -/
theorem discover_tools_refresh_policy_check :
    (discover_tools 60 ⟨[], 0⟩ false 100 (some toolsFetchBody)).1 = ⟨["a", "b"], 100⟩ ∧
    (["a", "b"] : List String).Sorted (fun a b => pyStrLe a b = true) := by
  have h := discover_tools_refresh_policy 60 ⟨[], 0⟩ false 100 (some toolsFetchBody)
  have hr : refresh_tools (some toolsFetchBody) = some ["a", "b"] := by decide
  have ht := h.2.2 ["a", "b"] hr (by rfl)
  exact ⟨ht.1, ht.2.2.1⟩

/-- C4: the batch of result messages is the resource-read results first, then
the tool-call results, each group in original extraction order (the i-th
message is the message of the i-th extracted request); the injected message
exists iff the batch is non-empty, and is then the double-newline join of that
ordered batch followed by the finalization instruction.  Dispatch in the source
is sequential, so completion order coincides with this order by construction. -/
theorem batch_groups_resources_then_tools (tool_names : List String)
    (readRes : String → ProviderResp)
    (call : String → List (String × JValue) → ProviderResp) (text : String) :
    dispatch_batch tool_names readRes call text =
      (parse_resource_read text).map (resource_msg readRes) ++
        (parse_tool_call text).map (fun s => (dispatch_tool tool_names call s).1) ∧
    (injected_message tool_names readRes call text = none ↔
      parse_resource_read text = [] ∧ parse_tool_call text = []) ∧
    (∀ s, injected_message tool_names readRes call text = some s →
      s = String.intercalate "\n\n"
            ((parse_resource_read text).map (resource_msg readRes) ++
              (parse_tool_call text).map (fun s => (dispatch_tool tool_names call s).1))
          ++ finalizeSuffix) := by
  have hb : dispatch_batch tool_names readRes call text =
      (parse_resource_read text).map (resource_msg readRes) ++
        (parse_tool_call text).map (fun s => (dispatch_tool tool_names call s).1) := by
    unfold dispatch_batch
    rw [foldl_snoc, foldl_snoc]
    simp
  refine ⟨hb, ?_, ?_⟩
  · unfold injected_message
    rw [hb]
    by_cases hz : (parse_resource_read text).map (resource_msg readRes) ++
        (parse_tool_call text).map (fun s => (dispatch_tool tool_names call s).1) = []
    · rw [if_neg (fun h => h hz)]
      have hq : parse_resource_read text = [] ∧ parse_tool_call text = [] := by
        simpa using hz
      simp [hq]
    · rw [if_pos hz]
      constructor
      · intro h
        exact absurd h (by simp)
      · rintro ⟨h1, h2⟩
        refine absurd ?_ hz
        rw [h1, h2]
        simp
  · intro s hs
    unfold injected_message at hs
    rw [hb] at hs
    split at hs
    · injection hs with h
      exact h.symm
    · exact absurd hs (by simp)

/-- C4 witness: the theorem applied to a reply with two tool blocks and one
resource block and to concrete providers. -/
theorem batch_groups_resources_then_tools_check :
    injected_message ["echo", "rag_search"] read0 call0 batchText ≠ none := by
  have h := batch_groups_resources_then_tools ["echo", "rag_search"] read0 call0 batchText
  intro hn
  have hz := h.2.1.mp hn
  have hne : parse_resource_read batchText ≠ [] := by decide
  exact hne hz.1

/-- C6 counterexample: a fenced block carrying both a tool key and a resource
key, with the tool shape valid, is NOT treated as a tool call only: the tool
parser yields a ToolCall and the resource parser additionally yields a
ResourceRead, so the block contributes two requests to the batch, refuting
exactly-one-request-and-no-ResourceRead. -/
theorem dual_key_block_both_requests_cx :
    (parse_tool_call dualText).map (fun s => s.tool) = ["echo"] ∧
    parse_resource_read dualText = [⟨"restaurant://menu/today"⟩] ∧
    parse_resource_read dualText ≠ [] ∧
    (dispatch_batch ["echo"] read0 call0 dualText).length = 2 := by
  refine ⟨by decide, by decide, by decide, by decide⟩

/-- C6 amended: a block whose JSON carries both keys yields a ToolCall from the
tool parser whenever the tool shape is valid, and in addition yields a
ResourceRead from the resource parser whenever the resource value is a string
with the restaurant:// scheme — the two classifiers are independent, so such a
block contributes two invocation requests, not one. -/
theorem dual_key_block_amended (m : String) (fields : List (String × JValue))
    (t : String) (args : List (String × JValue)) (u : String)
    (h1 : py_json_loads m = some (jobj fields))
    (h2 : jget fields "tool" = some (jstr t))
    (h3 : jgetD fields "arguments" (jobj []) = jobj args)
    (h4 : jget fields "resource" = some (jstr u))
    (h5 : strStartsWith u "restaurant://" = true) :
    toolOfBlock m = some ⟨t, args⟩ ∧ resOfBlock m = some ⟨u⟩ := by
  constructor
  · simp [toolOfBlock, h1, h2, h3]
  · simp [resOfBlock, h1, h4, h5]

/-- C6 amended witness: the amended theorem applied to the concrete dual-key
block. -/
theorem dual_key_block_amended_check :
    toolOfBlock dualBlock = some ⟨"echo", []⟩ ∧
    resOfBlock dualBlock = some ⟨"restaurant://menu/today"⟩ :=
  dual_key_block_amended dualBlock
    [("tool", jstr "echo"), ("arguments", jobj []), ("resource", jstr "restaurant://menu/today")]
    "echo" [] "restaurant://menu/today" (by rfl) (by rfl) (by rfl) (by rfl) (by rfl)

/-- C8 counterexample: build_system_prompt is not a pure function of the tool
list: two calls with the identical tool-name input in different program states
(different cached resource lists, both fresh) return different strings, and a
call in a state with a stale cache mutates the resource cache (a side
effect). -/
theorem build_prompt_not_pure_cx :
    (build_system_prompt 60 ["echo"] rstA 100 none).1 ≠
      (build_system_prompt 60 ["echo"] rstB 100 none).1 ∧
    (build_system_prompt 60 ["echo"] ⟨[], 0⟩ 100 (some resFetchBody)).2 ≠
      (⟨[], 0⟩ : ResCache) := by
  constructor <;> decide

/-- C8 amended: build_system_prompt is deterministic given its tool list and
the resource list that its internal discover_resources call observes: whenever
two states/clocks/provider responses make discover_resources return the same
resource list, the built prompts are byte-identical; and with an empty tool
list the builder performs no resource discovery at all and leaves the state
untouched. -/
theorem build_prompt_deterministic_given_resources
    (ttl ttl2 : Int) (tools : List String) (rst rst2 : ResCache)
    (now now2 : Int) (fetch fetch2 : Option JValue)
    (h : (discover_resources ttl rst false now fetch).2.1 =
         (discover_resources ttl2 rst2 false now2 fetch2).2.1) :
    (build_system_prompt ttl tools rst now fetch).1 =
      (build_system_prompt ttl2 tools rst2 now2 fetch2).1 ∧
    (tools = [] → (build_system_prompt ttl tools rst now fetch).2 = rst) := by
  constructor
  · by_cases ht : tools = []
    · simp [build_system_prompt, ht]
    · simp [build_system_prompt, ht, h]
  · intro ht
    simp [build_system_prompt, ht]

/-- C8 amended witness: the amended theorem applied to two different fresh
states caching the same resource list. -/
theorem build_prompt_deterministic_given_resources_check :
    (build_system_prompt 60 ["echo"] rstA 100 none).1 =
      (build_system_prompt 60 ["echo"] ⟨["restaurant://a"], 80⟩ 100 none).1 :=
  (build_prompt_deterministic_given_resources 60 60 ["echo"] rstA
    ⟨["restaurant://a"], 80⟩ 100 100 none none (by decide)).1

/-- C9: with an empty tool list the builder always returns, in every state, the
exact variant that forbids emitting mcp protocol blocks; with the tool list
consisting of echo it always returns a string containing the literal substring
echo together with the fenced-block syntax examples for a tool call and for a
resource read. -/
theorem build_prompt_fixed_variants :
    (∀ (ttl : Int) (rst : ResCache) (now : Int) (fetch : Option JValue),
      (build_system_prompt ttl [] rst now fetch).1 =
        "You are a helpful and concise assistant. Respond in English unless specifically requested otherwise. do not allucinate, if you don\x27t know the answer, say so or use the tools to find the answer. do not pass the turn to the user if you didn\x27t end your response. \nCurrently no MCP tools are available. Do not generate ```mcp``` blocks.") ∧
    (∀ (ttl : Int) (rst : ResCache) (now : Int) (fetch : Option JValue),
      strHasSeg (build_system_prompt ttl ["echo"] rst now fetch).1 "echo" = true ∧
      strHasSeg (build_system_prompt ttl ["echo"] rst now fetch).1 toolCallExample = true ∧
      strHasSeg (build_system_prompt ttl ["echo"] rst now fetch).1 resReadExample = true) := by
  have key : ∀ (e X : String),
      strHasSeg (promptWithTools e X) e = true ∧
      strHasSeg (promptWithTools e X) toolCallExample = true ∧
      strHasSeg (promptWithTools e X) resReadExample = true := by
    intro e X
    unfold promptWithTools
    simp only [str_append_assoc]
    refine ⟨?_, ?_, ?_⟩
    · exact strHasSeg_append_right _ _ _ (strHasSeg_append_right _ _ _
        (strHasSeg_self_left _ _))
    · exact strHasSeg_append_right _ _ _ (strHasSeg_append_right _ _ _
        (strHasSeg_append_right _ _ _ (strHasSeg_append_right _ _ _
          (strHasSeg_append_right _ _ _ (strHasSeg_append_right _ _ _
            (strHasSeg_self_left _ _))))))
    · exact strHasSeg_append_right _ _ _ (strHasSeg_append_right _ _ _
        (strHasSeg_append_right _ _ _ (strHasSeg_append_right _ _ _
          (strHasSeg_append_right _ _ _ (strHasSeg_append_right _ _ _
            (strHasSeg_append_right _ _ _ (strHasSeg_self_left _ _)))))))
  constructor
  · intro ttl rst now fetch
    rfl
  · intro ttl rst now fetch
    have hP : ∃ X, (build_system_prompt ttl ["echo"] rst now fetch).1 =
        promptWithTools "echo" X := ⟨_, rfl⟩
    obtain ⟨X, hX⟩ := hP
    rw [hX]
    exact key "echo" X

/-- C5: ensure_session is a no-op when a session is already connected; on
failure of any setup sub-step it resets every connection-state field to the
not-connected state, surfaces a connection error whose message names the
target, tears down whatever setup sub-steps had completed (every completed
enter has a matching close in the trace), and issues the session teardown
before the transport teardown (reverse order of setup). -/
theorem ensure_session_noop_and_teardown (target cause : String)
    (st : ConnState) (o : NetSteps) :
    (st.session = true → ensure_session target cause st o = (st, [], none)) ∧
    (st.session = false →
      (o.httpEnterOk = false ∨ o.unpackOk = false ∨ o.ctorOk = false ∨
        o.sessEnterOk = false ∨ o.initOk = false) →
      ((ensure_session target cause st o).1 = ⟨false, false, false⟩ ∧
       (ensure_session target cause st o).2.2 = some (connFailMsg target cause) ∧
       strHasSeg (connFailMsg target cause) target = true ∧
       (Act.enterHttp ∈ (ensure_session target cause st o).2.1 →
         Act.closeHttp ∈ (ensure_session target cause st o).2.1) ∧
       (Act.enterSess ∈ (ensure_session target cause st o).2.1 →
         Act.closeSess ∈ (ensure_session target cause st o).2.1) ∧
       (Act.closeSess ∈ (ensure_session target cause st o).2.1 →
         List.indexOf Act.closeSess (ensure_session target cause st o).2.1 <
           List.indexOf Act.closeHttp (ensure_session target cause st o).2.1))) := by
  obtain ⟨h1, h2, h3⟩ := st
  obtain ⟨b1, b2, b3, b4, b5⟩ := o
  cases h3 <;> cases h2 <;> cases h1 <;> cases b1 <;> cases b2 <;> cases b3 <;>
    cases b4 <;> cases b5 <;>
    simp [ensure_session, sessionFail, connFailMsg_names_target]

/-- C5 witness: the theorem applied to a fresh state whose initialize handshake
fails. -/
theorem ensure_session_noop_and_teardown_check :
    (ensure_session "http://127.0.0.1:8001/mcp" "boom" ⟨false, false, false⟩
      ⟨true, true, true, true, false⟩).1 = ⟨false, false, false⟩ := by
  have h := ensure_session_noop_and_teardown "http://127.0.0.1:8001/mcp" "boom"
    ⟨false, false, false⟩ ⟨true, true, true, true, false⟩
  exact (h.2 rfl (by simp)).1

end ChatBot
